import Mathlib

/-!
Verification of the tideland/go-actor serialized execution engine.

The repository contains a generic engine `Actor[S]` (state-owning actor with a
bounded request queue, a single dispatch goroutine, synchronous / asynchronous /
awaited submission, per-action timeouts and a finalization lifecycle) and a
non-generic engine `Actor` (actor.go).  Both are embedded below as executable
Lean functions: the dispatch loop becomes a fold over a schedule of events, the
result channels become explicit delivered values, and the deferred shutdown
sequence becomes an explicit list of engine snapshots.
-/

namespace GoActor

/-- ErrorCode mirrors the `ErrorCode` constants of errors.go. -/
inductive ErrorCode where
  | errNone
  | errShutdown
  | errTimeout
  | errCanceled
  | errPanicked
  | errInvalid
deriving DecidableEq, Repr

/-- GoErr models Go `error` values used by the package: the nil error,
`context.Canceled`, plain `fmt.Errorf` errors (identified by their message)
and the structured `ActorError\x7bOp, Err, Code\x7d` of errors.go. -/
inductive GoErr where
  | nilErr : GoErr
  | ctxCanceled : GoErr
  | plain : String → GoErr
  | actorError : String → GoErr → ErrorCode → GoErr
deriving DecidableEq, Repr

/-- A Go error is non-nil exactly when it is not `nilErr`. -/
def GoErr.isNonNil : GoErr → Bool
  | .nilErr => false
  | _ => true

namespace ActorS

/-- A queued unit of work of the generic engine (`request[S]` in the source):
whether its context is already done at dequeue time, whether a result channel
(`done`) is attached (synchronous and awaited submissions attach one, plain
async submissions set it to nil), and the action, which receives the owned
state and yields the new state together with the action-local error
(`nilErr` for a nil return). -/
structure Request (S : Type) where
  ctxCanceled : Bool
  hasDone : Bool
  action : S → S × GoErr

/-- Outcome of `Actor[S].executeRequest`: the owned state afterwards, the value
sent on the request's result channel (`none` when no channel is attached or
nothing was sent), and the error returned to the dispatch loop. -/
structure ExecOut (S : Type) where
  state : S
  delivered : Option GoErr
  ret : GoErr

/-- The timeout error built in executeRequest when the per-action timeout
context fires first. -/
def timeoutErr : GoErr :=
  .actorError "execute" (.plain "context deadline exceeded") .errTimeout

/-- The cancellation error built in executeRequest when the request context is
already done at dequeue time. -/
def dequeueCanceledErr : GoErr :=
  .actorError "execute" .ctxCanceled .errCanceled

/-- Embedding of `Actor[S].executeRequest`.  `actionTimeout` is the configured
per-action timeout (0 means none) and `tf` records whether, in the timeout
branch, the timeout context fires before the action goroutine closes its done
channel.  When the request context is already done the action never runs and a
cancellation error is delivered (synchronous) or dropped (async).  Otherwise
the action goroutine always runs the action to completion against the owned
state; if the timeout fires first only the reported error is replaced by a
timeout error.  The result is sent on the result channel when one is attached
(and the loop gets nil back); for an async request the action error is handed
to the loop. -/
def executeRequest {S : Type} (actionTimeout : Nat) (tf : Bool) (st : S)
    (req : Request S) : ExecOut S :=
  if req.ctxCanceled then
    { state := st
      delivered := if req.hasDone then some dequeueCanceledErr else none
      ret := .nilErr }
  else
    let out := req.action st
    let actionErr := if 0 < actionTimeout ∧ tf then timeoutErr else out.2
    if req.hasDone then
      { state := out.1, delivered := some actionErr, ret := .nilErr }
    else
      { state := out.1, delivered := none, ret := actionErr }

/-- One selection of the dispatch loop of `Actor[S].run`: either the actor
context is done (Stop or root-context cancellation) or the next queued request
is dequeued (`tf` is the timeout oracle passed to executeRequest). -/
inductive Event (S : Type) where
  | ctxDone
  | request (req : Request S) (tf : Bool)

/-- Outcome of running the dispatch loop over a schedule: the owned state, the
sequence of values delivered on result channels, and, when the loop exited,
the `finalErr` it exited with (`none` means the schedule ran out with the loop
still running). -/
structure LoopOut (S : Type) where
  state : S
  deliveries : List GoErr
  finalErr : Option GoErr

/-- The error recorded by `Actor[S].run` when it exits through actor-context
cancellation. -/
def shutdownRunErr : GoErr := .actorError "run" .ctxCanceled .errShutdown

/-- Embedding of the dispatch loop of `Actor[S].run`: requests are processed
strictly one at a time; on actor-context cancellation the loop exits with a
shutdown error; when executeRequest hands back a non-nil error (async action
failure) the loop exits with that error and the rest of the schedule is never
processed. -/
def run {S : Type} (actionTimeout : Nat) (st : S) : List (Event S) → LoopOut S
  | [] => { state := st, deliveries := [], finalErr := none }
  | .ctxDone :: _ =>
      { state := st, deliveries := [], finalErr := some shutdownRunErr }
  | .request req tf :: rest =>
      let ex := executeRequest actionTimeout tf st req
      if ex.ret.isNonNil then
        { state := ex.state, deliveries := ex.delivered.toList
          finalErr := some ex.ret }
      else
        let out := run actionTimeout ex.state rest
        { state := out.state
          deliveries := ex.delivered.toList ++ out.deliveries
          finalErr := out.finalErr }

/-- Embedding of the deferred finalization step of `Actor[S].run`: when a
finalizer is configured its non-nil result replaces `finalErr`; the result is
the value stored into the terminal-error slot. -/
def applyFinalizer (fin : Option (GoErr → GoErr)) (finalErr : GoErr) : GoErr :=
  match fin with
  | none => finalErr
  | some f => if (f finalErr).isNonNil then f finalErr else finalErr

/-- The terminal error readable through `Err()` after the loop exited: the
loop's `finalErr` as transformed by the configured finalizer.  `none` means
the loop has not terminated on the given schedule, so nothing was stored. -/
def storedErrAfter {S : Type} (actionTimeout : Nat)
    (fin : Option (GoErr → GoErr)) (st : S)
    (events : List (Event S)) : Option GoErr :=
  match (run actionTimeout st events).finalErr with
  | none => none
  | some e => some (applyFinalizer fin e)

/-- Caller-visible fields of the generic engine at submission time: the
`status` flag (stored true when the run goroutine has exited), the
terminal-error slot as read by `Err()` (`nilErr` while unset), the pending
request queue and the owned state. -/
structure Front (S : Type) where
  status : Bool
  errSlot : GoErr
  queue : List (Request S)
  state : S

/-- Which branch of the submission select fires: the request is accepted by
the queue, the request context is done first, or the actor context is done
first. -/
inductive SelectBranch where
  | sent
  | reqCtxDone
  | actorCtxDone

/-- Result of a submission call: an immediate error, or the request was
enqueued (a synchronous caller then blocks on the result channel, which the
dispatch loop serves). -/
inductive SubmitRes where
  | failed (e : GoErr)
  | enqueued

/-- Embedding of `Actor[S].DoWithErrorContext`: fails fast with a
shutdown-coded ActorError when `IsDone()`, otherwise selects between
enqueueing a request carrying a result channel, request-context
cancellation and actor-context cancellation. -/
def DoWithErrorContext {S : Type} (e : Front S) (br : SelectBranch)
    (ctxCanc : Bool) (action : S → S × GoErr) : SubmitRes × Front S :=
  if e.status then
    (.failed (.actorError "do" e.errSlot .errShutdown), e)
  else
    match br with
    | .sent =>
        (.enqueued, { e with queue := e.queue ++ [⟨ctxCanc, true, action⟩] })
    | .reqCtxDone => (.failed (.actorError "do" .ctxCanceled .errCanceled), e)
    | .actorCtxDone =>
        (.failed (.actorError "do" .ctxCanceled .errShutdown), e)

/-- Embedding of `Actor[S].DoAsyncWithErrorContext`: as DoWithErrorContext but
the enqueued request carries no result channel and the call returns nil as
soon as the request is accepted. -/
def DoAsyncWithErrorContext {S : Type} (e : Front S) (br : SelectBranch)
    (ctxCanc : Bool) (action : S → S × GoErr) : SubmitRes × Front S :=
  if e.status then
    (.failed (.actorError "do-async" e.errSlot .errShutdown), e)
  else
    match br with
    | .sent =>
        (.enqueued, { e with queue := e.queue ++ [⟨ctxCanc, false, action⟩] })
    | .reqCtxDone =>
        (.failed (.actorError "do-async" .ctxCanceled .errCanceled), e)
    | .actorCtxDone =>
        (.failed (.actorError "do-async" .ctxCanceled .errShutdown), e)

/-- State of the closure returned by DoAsyncAwaitWithErrorContext: the
enqueue-time error (`nilErr` when queueing succeeded) and the sync.Once-cached
result (`none` before the first invocation completed). -/
structure AwaiterSt where
  queueErr : GoErr
  cached : Option GoErr
deriving DecidableEq, Repr

/-- Embedding of `Actor[S].DoAsyncAwaitWithErrorContext`: when `IsDone()` the
enqueue fails with a shutdown-coded ActorError which is only cached in the
returned awaiter; otherwise the select either enqueues a request carrying the
result channel or caches a cancellation/shutdown error.  The submission itself
never reports the failure: it always returns an awaiter. -/
def DoAsyncAwaitWithErrorContext {S : Type} (e : Front S) (br : SelectBranch)
    (ctxCanc : Bool) (action : S → S × GoErr) : AwaiterSt × Front S :=
  if e.status then
    ({ queueErr := .actorError "do-async-await" e.errSlot .errShutdown
       cached := none }, e)
  else
    match br with
    | .sent =>
        ({ queueErr := .nilErr, cached := none },
         { e with queue := e.queue ++ [⟨ctxCanc, true, action⟩] })
    | .reqCtxDone =>
        ({ queueErr := .actorError "do-async-await" .ctxCanceled .errCanceled
           cached := none }, e)
    | .actorCtxDone =>
        ({ queueErr := .actorError "do-async-await" .ctxCanceled .errShutdown
           cached := none }, e)

/-- One invocation of the awaiter closure.  `chanVal` is the single value the
dispatch loop places in the buffered result channel.  Inside sync.Once the
first invocation either takes the cached enqueue error or blocks receiving
from the channel; later invocations return the cache without blocking.  The
returned Bool records whether this invocation blocked on the channel. -/
def invoke (chanVal : GoErr) (a : AwaiterSt) : GoErr × AwaiterSt × Bool :=
  match a.cached with
  | some r => (r, a, false)
  | none =>
      if a.queueErr.isNonNil then
        (a.queueErr, { a with cached := some a.queueErr }, false)
      else
        (chanVal, { a with cached := some chanVal }, true)

/-- K successive invocations of the awaiter, collecting for each the returned
error and whether it blocked. -/
def invokeK (chanVal : GoErr) : Nat → AwaiterSt → List (GoErr × Bool) × AwaiterSt
  | 0, a => ([], a)
  | Nat.succ k, a =>
      let step := invoke chanVal a
      let rest := invokeK chanVal k step.2.1
      ((step.1, step.2.2) :: rest.1, rest.2)

/-- Snapshot of the externally observable engine fields: the terminal-error
slot (`none` while nothing was stored), the status flag and whether the done
channel is closed. -/
structure EngineView where
  errStored : Option GoErr
  statusDone : Bool
  doneClosed : Bool
deriving DecidableEq, Repr

/-- Snapshot while the dispatch loop is running: nothing stored, status false,
done open. -/
def loopView : EngineView :=
  { errStored := none, statusDone := false, doneClosed := false }

/-- The deferred exit sequence of `Actor[S].run` in execution order: the last
registered defer runs first, so the finalizer runs and the finalized error is
stored, then the status flag is set, and only then the done channel is
closed. -/
def exitViews (stored : GoErr) : List EngineView :=
  [ { errStored := some stored, statusDone := false, doneClosed := false },
    { errStored := some stored, statusDone := true, doneClosed := false },
    { errStored := some stored, statusDone := true, doneClosed := true } ]

/-- Observable snapshots of the generic engine along a schedule: one snapshot
per loop iteration, followed (when the loop exits) by the deferred exit
sequence. -/
def runViews {S : Type} (actionTimeout : Nat) (fin : Option (GoErr → GoErr))
    (st : S) : List (Event S) → List EngineView
  | [] => [loopView]
  | .ctxDone :: _ =>
      loopView :: exitViews (applyFinalizer fin shutdownRunErr)
  | .request req tf :: rest =>
      let ex := executeRequest actionTimeout tf st req
      if ex.ret.isNonNil then
        loopView :: exitViews (applyFinalizer fin ex.ret)
      else
        loopView :: runViews actionTimeout fin ex.state rest

/-- Primitive steps of the run goroutine, for counting lifecycle events. -/
inductive StepEv where
  | executeStep
  | finalizeStep
  | storeStep
  | statusStep
  | closeDoneStep
deriving DecidableEq, Repr

/-- The deferred exit steps of `Actor[S].run` in execution order; the
finalizer step is present exactly when a finalizer is configured. -/
def exitSteps (finPresent : Bool) : List StepEv :=
  (if finPresent then [.finalizeStep] else []) ++
    [.storeStep, .statusStep, .closeDoneStep]

/-- The steps the run goroutine performs on a schedule: one execute step per
dequeued request, then on exit the deferred finalize/store/status/close
sequence.  The loop exits at the first actor-context cancellation, so later
Stop signals in the schedule are never observed. -/
def runSteps {S : Type} (actionTimeout : Nat) (finPresent : Bool) (st : S) :
    List (Event S) → List StepEv
  | [] => []
  | .ctxDone :: _ => exitSteps finPresent
  | .request req tf :: rest =>
      let ex := executeRequest actionTimeout tf st req
      if ex.ret.isNonNil then .executeStep :: exitSteps finPresent
      else .executeStep :: runSteps actionTimeout finPresent ex.state rest

/-- Embedding of `Actor[S].Stop`: it unconditionally cancels the actor
context, and context cancellation is an idempotent latch on the ctx-done
flag. -/
def Stop (ctxDone : Bool) : Bool :=
  let _ := ctxDone
  true

/-- K repeated Stop calls. -/
def stopN : Nat → Bool → Bool
  | 0, c => c
  | Nat.succ k, c => stopN k (Stop c)

end ActorS

namespace ActorNG

/-- Embedding of the default finalizer of options.go: a non-nil error is
wrapped in a shutdown-coded ActorError, nil stays nil. -/
def defaultFinalizer : GoErr → GoErr := fun e =>
  if e.isNonNil then .actorError "Finalize" e .errShutdown else .nilErr

/-- Embedding of `Actor.finalize` of actor.go: the finalizer is applied to the
current error slot, and its result is stored only when non-nil. -/
def finalize (f : GoErr → GoErr) (errSlot : GoErr) : GoErr :=
  if (f errSlot).isNonNil then f errSlot else errSlot

/-- Snapshot of the non-generic engine: terminal-error slot (`nilErr` while
unset) and whether the done channel is closed. -/
structure View where
  errSlot : GoErr
  doneClosed : Bool
deriving DecidableEq, Repr

/-- Observable snapshots of the non-generic engine (actor.go) during a clean
stop with finalizer `f`, in program order: while running; after `work`
observes the canceled actor context and closes `act.done` inside its select
(before returning to `backend`); after the deferred `finalize` ran. -/
def cleanStopViews (f : GoErr → GoErr) : List View :=
  [ { errSlot := .nilErr, doneClosed := false },
    { errSlot := .nilErr, doneClosed := true },
    { errSlot := finalize f .nilErr, doneClosed := true } ]

/-- A finalizer that reports an error even on a clean stop, as permitted by
the Finalizer signature. -/
def lateFinalizer : GoErr → GoErr := fun _ => .plain "late finalizer error"

end ActorNG

namespace ConfigV

/-- The value-struct Config of config.go (first declaration): queue capacity
and default action timeout in nanoseconds.  The nil-context / nil-recoverer /
nil-finalizer default filling of Validate is omitted as it does not affect the
returned error. -/
structure Config where
  queueCap : Int
  actionTimeout : Int
deriving DecidableEq, Repr

/-- Embedding of `Config.Validate` of config.go: only the queue capacity is
checked; a non-positive capacity yields an ErrInvalid-coded ActorError, and
the action timeout is not inspected at all. -/
def validate (c : Config) : GoErr :=
  if c.queueCap < 1 then
    .actorError "Config.Validate" (.plain "queue capacity must be positive")
      .errInvalid
  else .nilErr

/-- Construction outcome: whether the backend goroutine was started, the
capacity the request queue was allocated with, and the returned error. -/
structure GoOut where
  started : Bool
  queueCap : Option Int
  err : GoErr
deriving DecidableEq, Repr

/-- Embedding of `Go(cfg Config)` of part_009: a validation failure is wrapped
in an ErrInvalid-coded ActorError and returned before the backend goroutine is
started; otherwise the queue is allocated with capacity `cfg.QueueCap` and the
backend starts. -/
def goConstruct (c : Config) : GoOut :=
  if (validate c).isNonNil then
    { started := false, queueCap := none
      err := .actorError "Go" (validate c) .errInvalid }
  else
    { started := true, queueCap := some c.queueCap, err := .nilErr }

end ConfigV

namespace ConfigF

/-- The fluent-builder Config of config.go (second declaration): private
fields set through setters, with validation errors accumulated via
errors.Join, modelled as the list of accumulated errors. -/
structure Config where
  queueCapacity : Int
  actionTimeout : Int
  shutdownTimeout : Int
  errAcc : List GoErr
deriving DecidableEq, Repr

/-- Embedding of `NewConfig` defaults: capacity 256, no action timeout,
shutdown timeout 5s (in nanoseconds), no accumulated error. -/
def newConfig : Config :=
  { queueCapacity := 256, actionTimeout := 0, shutdownTimeout := 5000000000
    errAcc := [] }

/-- Embedding of `Config.wrapError`: errors.Join accumulation. -/
def wrapError (c : Config) (e : GoErr) : Config :=
  { c with errAcc := c.errAcc ++ [e] }

/-- Embedding of `Config.SetQueueCapacity`: a non-positive capacity records a
plain validation error and leaves the capacity unchanged. -/
def setQueueCapacity (c : Config) (capacity : Int) : Config :=
  if capacity ≤ 0 then
    wrapError c (.plain "queue capacity must be positive")
  else { c with queueCapacity := capacity }

/-- Embedding of `Config.SetActionTimeout`: a negative timeout records a plain
validation error and leaves the timeout unchanged. -/
def setActionTimeout (c : Config) (t : Int) : Config :=
  if t < 0 then
    wrapError c (.plain "action timeout cannot be negative")
  else { c with actionTimeout := t }

/-- Embedding of `Config.Validate`: returns the accumulated errors (empty
means nil). -/
def validate (c : Config) : List GoErr := c.errAcc

/-- Construction outcome of the generic `Go[S]`: whether the run goroutine was
started, the capacity the request queue was allocated with, and the errors
returned (empty means success). -/
structure GoOut where
  started : Bool
  queueCap : Option Int
  errs : List GoErr
deriving DecidableEq, Repr

/-- Embedding of the generic `Go[S](initialState, cfg)`: a validation failure
is returned as-is (a plain accumulated error, not an ErrInvalid-coded
ActorError) before the run goroutine is started; otherwise the queue is
allocated with exactly `cfg.QueueCapacity()` and the goroutine starts. -/
def goS (c : Config) : GoOut :=
  if (validate c).isEmpty then
    { started := true, queueCap := some c.queueCapacity, errs := [] }
  else
    { started := false, queueCap := none, errs := validate c }

end ConfigF

/-- The increment action of the serialization scenario: the owned state is an
integer counter and each action adds one, returning nil. -/
def incrAction : Nat → Nat × GoErr := fun n => (n + 1, .nilErr)

/-- An event is an increment submission when it dequeues a live request whose
action is the increment; the submission flavour (with or without a result
channel) is arbitrary. -/
def isIncrEvent (ev : ActorS.Event Nat) : Prop :=
  ∃ hd : Bool, ev = .request ⟨false, hd, incrAction⟩ false

/-- Processing any schedule of increment requests adds the schedule length to
the counter and leaves the loop running. -/
theorem run_incr_general (events : List (ActorS.Event Nat)) (st : Nat)
    (h : ∀ ev ∈ events, isIncrEvent ev) :
    (ActorS.run 0 st events).state = st + events.length ∧
      (ActorS.run 0 st events).finalErr = none := by
  induction events generalizing st with
  | nil => simp [ActorS.run]
  | cons ev rest ih =>
      obtain ⟨hd, rfl⟩ := h ev (List.mem_cons_self ev rest)
      have hrest : ∀ e ∈ rest, isIncrEvent e := fun e he =>
        h e (List.mem_cons_of_mem _ he)
      obtain ⟨ih1, ih2⟩ := ih (st + 1) hrest
      cases hd <;>
        simp [ActorS.run, ActorS.executeRequest, incrAction, GoErr.isNonNil,
          ih1, ih2] <;> omega

/-- Claim C1: for N concurrent callers each submitting M increment actions,
the dispatch loop of the generic engine processes the queued requests strictly
one at a time (the loop model dequeues and fully executes a single request
per iteration), so whatever order the N*M submissions were enqueued in, the
final counter is exactly N*M with no lost updates and the engine still
running. -/
theorem C1_serialized_counter (N M : Nat) (events : List (ActorS.Event Nat))
    (hlen : events.length = N * M)
    (hinc : ∀ ev ∈ events, isIncrEvent ev) :
    (ActorS.run 0 0 events).state = N * M ∧
      (ActorS.run 0 0 events).finalErr = none := by
  obtain ⟨h1, h2⟩ := run_incr_general events 0 hinc
  exact ⟨by omega, h2⟩

/-- Witness for C1 at N = 2, M = 3 with all six increments submitted
asynchronously. -/
theorem C1_serialized_counter_witness :
    (ActorS.run 0 0 (List.replicate 6
        (ActorS.Event.request ⟨false, false, incrAction⟩ false))).state = 2 * 3 ∧
      (ActorS.run 0 0 (List.replicate 6
        (ActorS.Event.request ⟨false, false, incrAction⟩ false))).finalErr
        = none :=
  C1_serialized_counter 2 3 _ (by simp)
    (fun ev hev => by
      rcases List.eq_of_mem_replicate hev with rfl
      exact ⟨false, rfl⟩)

/-- Claim C2: an action-local error from a blocking submission (result channel
attached) is delivered to the submitting caller while the loop hands back nil,
continues with the remaining schedule and records no terminal error for it; the
same error from a non-blocking submission (no result channel) makes the loop
exit at once, the error becomes the stored terminal error, and nothing further
is processed or delivered. -/
theorem C2_error_propagation {S : Type} (st : S) (f : S → S × GoErr)
    (e : GoErr) (hf : (f st).2 = e) (he : e.isNonNil = true)
    (rest : List (ActorS.Event S)) :
    (ActorS.run 0 st (.request ⟨false, true, f⟩ false :: rest)).deliveries
        = e :: (ActorS.run 0 (f st).1 rest).deliveries ∧
      (ActorS.run 0 st (.request ⟨false, true, f⟩ false :: rest)).finalErr
        = (ActorS.run 0 (f st).1 rest).finalErr ∧
      (ActorS.run 0 st (.request ⟨false, false, f⟩ false :: rest)).finalErr
        = some e ∧
      ActorS.storedErrAfter 0 none st
          (.request ⟨false, false, f⟩ false :: rest) = some e ∧
      (ActorS.run 0 st (.request ⟨false, false, f⟩ false :: rest)).deliveries
        = [] := by
  refine ⟨?_, ?_, ?_, ?_, ?_⟩ <;>
    simp [ActorS.run, ActorS.executeRequest, ActorS.storedErrAfter,
      ActorS.applyFinalizer, hf, he, show GoErr.nilErr.isNonNil = false from rfl]

/-- Witness for C2 with a concrete failing action on a counter state. -/
theorem C2_error_propagation_witness :
    ((fun n : Nat => (n, GoErr.plain "boom")) 0).2 = .plain "boom" ∧
      (ActorS.run 0 0
          (.request ⟨false, false, fun n : Nat => (n, GoErr.plain "boom")⟩
            false :: [])).finalErr = some (.plain "boom") :=
  ⟨rfl, (C2_error_propagation 0 (fun n : Nat => (n, GoErr.plain "boom"))
    (.plain "boom") rfl rfl []).2.2.1⟩

/-- Invoking an awaiter whose sync.Once already cached a result returns that
result every time without blocking. -/
theorem invokeK_cached (cv r : GoErr) (k : Nat) (a : ActorS.AwaiterSt)
    (h : a.cached = some r) :
    (ActorS.invokeK cv k a).1 = List.replicate k (r, false) := by
  induction k generalizing a with
  | zero => simp [ActorS.invokeK]
  | succ k ih =>
      simp only [ActorS.invokeK, ActorS.invoke, h, List.replicate]
      exact congrArg _ (ih a h)

/-- Claim C3: the dispatch loop executes an awaited action exactly once,
placing its single result in the buffered channel; invoking the returned
awaiter K ≥ 1 times yields the identical result every time, only the first
invocation blocks on the channel, and no invocation re-executes the action
(the owned state is the single application of the action). -/
theorem C3_awaiter_idempotent {S : Type} (K : Nat) (hK : 1 ≤ K)
    (f : S → S × GoErr) (st : S) :
    (ActorS.executeRequest 0 false st ⟨false, true, f⟩).state = (f st).1 ∧
      (ActorS.executeRequest 0 false st ⟨false, true, f⟩).delivered
        = some (f st).2 ∧
      (ActorS.invokeK (f st).2 K ⟨.nilErr, none⟩).1
        = ((f st).2, true) :: List.replicate (K - 1) ((f st).2, false) := by
  refine ⟨by simp [ActorS.executeRequest], by simp [ActorS.executeRequest], ?_⟩
  obtain ⟨k, rfl⟩ : ∃ k, K = k + 1 := ⟨K - 1, by omega⟩
  simp only [ActorS.invokeK, ActorS.invoke, GoErr.isNonNil, Nat.add_sub_cancel]
  exact congrArg _ (invokeK_cached _ _ _ _ rfl)

/-- Witness for C3 at K = 3 with a concrete incrementing action. -/
theorem C3_awaiter_idempotent_witness :
    (ActorS.executeRequest 0 false 0
        ⟨false, true, fun n : Nat => (n + 1, GoErr.plain "x")⟩).state
        = ((fun n : Nat => (n + 1, GoErr.plain "x")) 0).1 ∧
      (ActorS.executeRequest 0 false 0
        ⟨false, true, fun n : Nat => (n + 1, GoErr.plain "x")⟩).delivered
        = some ((fun n : Nat => (n + 1, GoErr.plain "x")) 0).2 ∧
      (ActorS.invokeK ((fun n : Nat => (n + 1, GoErr.plain "x")) 0).2 3
          ⟨.nilErr, none⟩).1
        = (((fun n : Nat => (n + 1, GoErr.plain "x")) 0).2, true) ::
            List.replicate 2
              (((fun n : Nat => (n + 1, GoErr.plain "x")) 0).2, false) :=
  C3_awaiter_idempotent 3 (by decide) (fun n : Nat => (n + 1, GoErr.plain "x")) 0

/-- Claim C4: once the engine has terminated (status flag stored), every
blocking and non-blocking submission fails immediately with a shutdown-coded
ActorError, regardless of which select branch would otherwise fire, and the
engine — queue and owned state included — is left exactly unchanged, so the
action is neither enqueued nor executed. -/
theorem C4_submission_after_termination {S : Type} (e : ActorS.Front S)
    (h : e.status = true) (br : ActorS.SelectBranch) (ctxCanc : Bool)
    (action : S → S × GoErr) :
    ActorS.DoWithErrorContext e br ctxCanc action
        = (.failed (.actorError "do" e.errSlot .errShutdown), e) ∧
      ActorS.DoAsyncWithErrorContext e br ctxCanc action
        = (.failed (.actorError "do-async" e.errSlot .errShutdown), e) := by
  constructor <;> simp [ActorS.DoWithErrorContext,
    ActorS.DoAsyncWithErrorContext, h]

/-- Witness for C4 on a terminated engine with counter state 7. -/
theorem C4_submission_after_termination_witness :
    (⟨true, .nilErr, [], 7⟩ : ActorS.Front Nat).status = true ∧
      ActorS.DoWithErrorContext (⟨true, .nilErr, [], 7⟩ : ActorS.Front Nat)
          .sent false (fun n => (n + 1, .nilErr))
        = (.failed (.actorError "do" .nilErr .errShutdown),
            ⟨true, .nilErr, [], 7⟩) ∧
      ActorS.DoAsyncWithErrorContext (⟨true, .nilErr, [], 7⟩ : ActorS.Front Nat)
          .sent false (fun n => (n + 1, .nilErr))
        = (.failed (.actorError "do-async" .nilErr .errShutdown),
            ⟨true, .nilErr, [], 7⟩) :=
  ⟨rfl,
    (C4_submission_after_termination _ rfl .sent false _).1,
    (C4_submission_after_termination _ rfl .sent false _).2⟩

/-- Claim C5: with a per-action timeout configured, when the timeout fires
while the action is already executing the caller is handed a timeout-coded
ActorError, yet the owned state is the full application of the action — the
action goroutine runs to completion against the state and the engine neither
preempts it nor turns the timeout into an engine error (the loop receives
nil). -/
theorem C5_timeout_nonpreemptive {S : Type} (actionTimeout : Nat)
    (ht : 0 < actionTimeout) (st : S) (f : S → S × GoErr) :
    ActorS.executeRequest actionTimeout true st ⟨false, true, f⟩
      = { state := (f st).1, delivered := some ActorS.timeoutErr
          ret := .nilErr } := by
  simp [ActorS.executeRequest, ht]

/-- Witness for C5 with timeout 1 and an action adding 7 to the counter. -/
theorem C5_timeout_nonpreemptive_witness :
    0 < 1 ∧
      ActorS.executeRequest 1 true 0
          ⟨false, true, fun n : Nat => (n + 7, GoErr.nilErr)⟩
        = { state := ((fun n : Nat => (n + 7, GoErr.nilErr)) 0).1
            delivered := some ActorS.timeoutErr, ret := .nilErr } :=
  ⟨by decide, C5_timeout_nonpreemptive 1 (by decide) 0 _⟩

/-- Every snapshot of the deferred exit sequence already carries the stored
finalized error. -/
theorem mem_exitViews (v : ActorS.EngineView) (s : GoErr)
    (h : v ∈ ActorS.exitViews s) : v.errStored = some s := by
  simp [ActorS.exitViews] at h
  rcases h with rfl | rfl | rfl <;> rfl

/-- Along any schedule of the generic engine there is a single stored value
that every done-closed snapshot carries. -/
theorem runViews_stored {S : Type} (t : Nat) (fin : Option (GoErr → GoErr))
    (st : S) (events : List (ActorS.Event S)) :
    ∃ stored : GoErr, ∀ v ∈ ActorS.runViews t fin st events,
      v.doneClosed = true → v.errStored = some stored := by
  induction events generalizing st with
  | nil =>
      refine ⟨.nilErr, ?_⟩
      intro v hv hd
      simp [ActorS.runViews] at hv
      rw [hv] at hd
      simp [ActorS.loopView] at hd
  | cons ev rest ih =>
      cases ev with
      | ctxDone =>
          refine ⟨ActorS.applyFinalizer fin ActorS.shutdownRunErr, ?_⟩
          intro v hv hd
          simp only [ActorS.runViews, List.mem_cons] at hv
          rcases hv with rfl | hv
          · simp [ActorS.loopView] at hd
          · exact mem_exitViews v _ hv
      | request req tf =>
          by_cases hret :
              (ActorS.executeRequest t tf st req).ret.isNonNil = true
          · refine ⟨ActorS.applyFinalizer fin
              (ActorS.executeRequest t tf st req).ret, ?_⟩
            intro v hv hd
            simp only [ActorS.runViews, hret, if_true, List.mem_cons] at hv
            rcases hv with rfl | hv
            · simp [ActorS.loopView] at hd
            · exact mem_exitViews v _ hv
          · obtain ⟨stored, hall⟩ :=
              ih (ActorS.executeRequest t tf st req).state
            refine ⟨stored, ?_⟩
            intro v hv hd
            simp only [ActorS.runViews, hret, if_false, List.mem_cons,
              Bool.false_eq_true] at hv
            rcases hv with rfl | hv
            · simp [ActorS.loopView] at hd
            · exact hall v hv hd

/-- Claim C6 (amended to the generic engine): along every schedule of the
generic `Actor[S]`, any snapshot in which the done channel is closed already
has the finalized terminal error stored — the deferred close runs only after
the finalizer completed and the store happened — and any two done-closed
snapshots carry the same stored value, so `Err()` is stable once `Done` is
observable. -/
theorem C6_done_after_finalizer {S : Type} (t : Nat)
    (fin : Option (GoErr → GoErr)) (st : S) (events : List (ActorS.Event S))
    (v w : ActorS.EngineView)
    (hv : v ∈ ActorS.runViews t fin st events)
    (hw : w ∈ ActorS.runViews t fin st events)
    (hvd : v.doneClosed = true) :
    v.errStored.isSome = true ∧
      (w.doneClosed = true → w.errStored = v.errStored) := by
  obtain ⟨stored, hall⟩ := runViews_stored t fin st events
  have h1 := hall v hv hvd
  exact ⟨by rw [h1]; rfl, fun hwd => by rw [hall w hw hwd, h1]⟩

/-- Witness for C6 on a clean-stop schedule of the generic engine. -/
theorem C6_done_after_finalizer_witness :
    (⟨some ActorS.shutdownRunErr, true, true⟩ : ActorS.EngineView) ∈
        ActorS.runViews 0 none (0 : Nat) [ActorS.Event.ctxDone] ∧
      (⟨some ActorS.shutdownRunErr, true, true⟩ :
          ActorS.EngineView).errStored.isSome = true :=
  ⟨by decide,
    (C6_done_after_finalizer 0 none 0 [ActorS.Event.ctxDone]
      ⟨some ActorS.shutdownRunErr, true, true⟩
      ⟨some ActorS.shutdownRunErr, true, true⟩
      (by decide) (by decide) rfl).1⟩

/-- Counterexample to C6 as stated: in the non-generic engine (actor.go), the
work loop closes the done channel inside its select before returning, and only
afterwards does the deferred finalize run; with a finalizer that reports an
error on a clean stop, the engine is observable as done (snapshot 1) while the
error slot is still nil, and `Err()` changes afterwards (snapshot 2). -/
theorem C6_done_before_finalizer_cex :
    (ActorNG.cleanStopViews ActorNG.lateFinalizer).get? 1
        = some { errSlot := .nilErr, doneClosed := true } ∧
      (ActorNG.cleanStopViews ActorNG.lateFinalizer).get? 2
        = some { errSlot := .plain "late finalizer error", doneClosed := true } := by
  constructor <;> rfl

/-- Repeated Stop calls on an already canceled context change nothing. -/
theorem stopN_true (K : Nat) : ActorS.stopN K true = true := by
  induction K with
  | zero => rfl
  | succ k ih => simpa [ActorS.stopN, ActorS.Stop] using ih

/-- On every terminating schedule, the step trace of the run goroutine is a
prefix of pure request executions followed by exactly one copy of the deferred
exit sequence. -/
theorem runSteps_shape {S : Type} (t : Nat) (fp : Bool) (st : S)
    (events : List (ActorS.Event S))
    (hterm : (ActorS.run t st events).finalErr.isSome = true) :
    ∃ p : List ActorS.StepEv,
      ActorS.runSteps t fp st events = p ++ ActorS.exitSteps fp ∧
        ∀ s ∈ p, s = .executeStep := by
  induction events generalizing st with
  | nil => simp [ActorS.run] at hterm
  | cons ev rest ih =>
      cases ev with
      | ctxDone => exact ⟨[], by simp [ActorS.runSteps], by simp⟩
      | request req tf =>
          by_cases hret :
              (ActorS.executeRequest t tf st req).ret.isNonNil = true
          · refine ⟨[.executeStep], ?_, by simp⟩
            simp [ActorS.runSteps, hret]
          · simp only [ActorS.run, hret, Bool.false_eq_true, if_false] at hterm
            obtain ⟨p, hp, hall⟩ :=
              ih (ActorS.executeRequest t tf st req).state hterm
            refine ⟨.executeStep :: p, ?_, ?_⟩
            · simp [ActorS.runSteps, hret, hp]
            · intro s hs
              rcases List.mem_cons.mp hs with rfl | hs
              · rfl
              · exact hall s hs

/-- Claim C7: Stop is idempotent — any number K ≥ 1 of Stop calls equals a
single Stop on the cancellation latch — and on every terminating schedule the
run goroutine performs the deferred exit sequence exactly once at the very
end, a sequence containing exactly one finalizer invocation (when one is
configured) and exactly one close of the done channel; Stop signals after
termination are never observed by the loop. -/
theorem C7_stop_idempotent_finalize_once {S : Type} (c : Bool) (K : Nat)
    (hK : 1 ≤ K) (t : Nat) (finPresent : Bool) (st : S)
    (events : List (ActorS.Event S))
    (hterm : (ActorS.run t st events).finalErr.isSome = true) :
    ActorS.stopN K c = ActorS.Stop c ∧
      (∃ p : List ActorS.StepEv,
        ActorS.runSteps t finPresent st events = p ++ ActorS.exitSteps finPresent ∧
          ∀ s ∈ p, s = .executeStep) ∧
      (ActorS.exitSteps true).count .finalizeStep = 1 ∧
      (ActorS.exitSteps finPresent).count .closeDoneStep = 1 := by
  refine ⟨?_, runSteps_shape t finPresent st events hterm, rfl, ?_⟩
  · obtain ⟨k, rfl⟩ : ∃ k, K = k + 1 := ⟨K - 1, by omega⟩
    simp [ActorS.stopN, ActorS.Stop, stopN_true]
  · cases finPresent <;> rfl

/-- Witness for C7: two Stop calls, a clean-stop schedule, a configured
finalizer. -/
theorem C7_stop_idempotent_finalize_once_witness :
    (1 : Nat) ≤ 2 ∧
      (ActorS.run 0 (0 : Nat) [ActorS.Event.ctxDone]).finalErr.isSome = true ∧
      ActorS.stopN 2 false = ActorS.Stop false ∧
      (ActorS.exitSteps true).count .closeDoneStep = 1 :=
  ⟨by decide, rfl,
    (C7_stop_idempotent_finalize_once false 2 (by decide) 0 true 0
      [ActorS.Event.ctxDone] rfl).1,
    (C7_stop_idempotent_finalize_once false 2 (by decide) 0 true 0
      [ActorS.Event.ctxDone] rfl).2.2.2⟩

/-- Counterexample to C8 as stated: in the generic engine, a clean stop (actor
context canceled, no action ever failed, no finalizer configured — the
NewConfig default) stores a non-nil shutdown-coded ActorError as the terminal
error, so `Err()` is not nil after a clean termination. -/
theorem C8_clean_stop_nonnil_err_cex :
    ActorS.storedErrAfter 0 none (0 : Nat) [ActorS.Event.ctxDone]
        = some (GoErr.actorError "run" .ctxCanceled .errShutdown) ∧
      (GoErr.actorError "run" .ctxCanceled .errShutdown).isNonNil = true := by
  constructor <;> rfl

/-- Claim C8 (amended): in the non-generic engine (actor.go) with the default
finalizer of options.go, a clean stop leaves the terminal error nil and a
non-nil value can only arise from a previously recorded error; the generic
`Actor[S]` engine instead records a shutdown-coded ActorError on every
context-triggered termination, so there `Err()` is non-nil even after a clean
stop. -/
theorem C8_clean_stop_err :
    ActorNG.finalize ActorNG.defaultFinalizer .nilErr = .nilErr ∧
      (∀ e : GoErr,
        (ActorNG.finalize ActorNG.defaultFinalizer e).isNonNil = e.isNonNil) ∧
      (∀ (st : Nat) (fin : Option (GoErr → GoErr)),
        ActorS.storedErrAfter 0 fin st [ActorS.Event.ctxDone]
          = some (ActorS.applyFinalizer fin ActorS.shutdownRunErr)) := by
  refine ⟨rfl, ?_, fun st fin => rfl⟩
  intro e
  cases e <;> rfl

/-- Counterexample to C9 as stated: a value-struct Config with a negative
action timeout passes `Config.Validate` and construction succeeds, starting
the backend goroutine, instead of failing with an ErrInvalid configuration
error. -/
theorem C9_negative_timeout_cex :
    ConfigV.validate { queueCap := 1, actionTimeout := -1 } = .nilErr ∧
      ConfigV.goConstruct { queueCap := 1, actionTimeout := -1 }
        = { started := true, queueCap := some 1, err := .nilErr } := by
  constructor <;> rfl

/-- Claim C9 (amended): a non-positive queue capacity makes construction fail
with an ErrInvalid-coded error before the backend goroutine starts, and every
valid configuration allocates the queue at exactly the configured capacity;
a negative action timeout, however, is rejected only through the fluent
builder (as a plain accumulated configuration error that makes the generic
constructor fail before starting the goroutine, without an ErrInvalid code),
while the value-struct `Config.Validate` ignores the timeout entirely. -/
theorem C9_config_validation :
    (∀ c : ConfigV.Config, c.queueCap < 1 →
        ConfigV.goConstruct c
          = { started := false, queueCap := none
              err := .actorError "Go"
                (.actorError "Config.Validate"
                  (.plain "queue capacity must be positive") .errInvalid)
                .errInvalid }) ∧
      (∀ c : ConfigV.Config, 1 ≤ c.queueCap →
        ConfigV.goConstruct c
          = { started := true, queueCap := some c.queueCap, err := .nilErr }) ∧
      (∀ capacity t : Int, capacity ≤ 0 ∨ t < 0 →
        (ConfigF.goS (ConfigF.setActionTimeout
            (ConfigF.setQueueCapacity ConfigF.newConfig capacity) t)).started
            = false ∧
          (ConfigF.goS (ConfigF.setActionTimeout
            (ConfigF.setQueueCapacity ConfigF.newConfig capacity) t)).errs
            ≠ []) ∧
      (∀ capacity t : Int, 0 < capacity → 0 ≤ t →
        ConfigF.goS (ConfigF.setActionTimeout
            (ConfigF.setQueueCapacity ConfigF.newConfig capacity) t)
          = { started := true, queueCap := some capacity, errs := [] }) := by
  refine ⟨?_, ?_, ?_, ?_⟩
  · intro c hc
    simp [ConfigV.goConstruct, ConfigV.validate, hc, GoErr.isNonNil]
  · intro c hc
    simp [ConfigV.goConstruct, ConfigV.validate, show ¬ c.queueCap < 1 by omega,
      GoErr.isNonNil]
  · intro capacity t h
    rcases h with h | h
    · constructor <;>
        simp [ConfigF.goS, ConfigF.validate, ConfigF.setActionTimeout,
          ConfigF.setQueueCapacity, ConfigF.wrapError, ConfigF.newConfig, h] <;>
        split <;> simp
    · constructor <;>
        simp [ConfigF.goS, ConfigF.validate, ConfigF.setActionTimeout,
          ConfigF.setQueueCapacity, ConfigF.wrapError, ConfigF.newConfig, h]
  · intro capacity t h1 h2
    simp [ConfigF.goS, ConfigF.validate, ConfigF.setActionTimeout,
      ConfigF.setQueueCapacity, ConfigF.wrapError, ConfigF.newConfig,
      show ¬ capacity ≤ 0 by omega, show ¬ t < 0 by omega]

/-- Witness for C9 (amended) at concrete configurations. -/
theorem C9_config_validation_witness :
    ({ queueCap := 0, actionTimeout := 0 } : ConfigV.Config).queueCap < 1 ∧
      (ConfigV.goConstruct { queueCap := 0, actionTimeout := 0 }).started
        = false ∧
      (ConfigF.goS (ConfigF.setActionTimeout
          (ConfigF.setQueueCapacity ConfigF.newConfig 8) (-1))).started
        = false ∧
      ConfigF.goS (ConfigF.setActionTimeout
          (ConfigF.setQueueCapacity ConfigF.newConfig 8) 0)
        = { started := true, queueCap := some 8, errs := [] } :=
  ⟨by decide,
    by rw [(C9_config_validation.1 { queueCap := 0, actionTimeout := 0 }
      (by decide))],
    by rw [((C9_config_validation.2.2.1 8 (-1) (Or.inr (by decide))).1)],
    C9_config_validation.2.2.2 8 0 (by decide) (by decide)⟩

/-- A fresh awaiter holding a non-nil enqueue error returns it on every
invocation without ever blocking. -/
theorem invokeK_queueErr (cv : GoErr) (K : Nat) (hK : 1 ≤ K) (qe : GoErr)
    (hq : qe.isNonNil = true) :
    (ActorS.invokeK cv K ⟨qe, none⟩).1 = List.replicate K (qe, false) := by
  obtain ⟨k, rfl⟩ : ∃ k, K = k + 1 := ⟨K - 1, by omega⟩
  simp only [ActorS.invokeK, ActorS.invoke, hq, if_true, List.replicate_succ]
  exact congrArg _ (invokeK_cached cv qe k _ rfl)

/-- Claim C10: a DoAsyncAwait submission made after engine termination (or
whose enqueue select observes a done request context) leaves the engine —
queue and state — unchanged and returns an awaiter that on every one of K ≥ 1
invocations immediately yields the enqueue-time shutdown (respectively
cancellation) ActorError without ever blocking; the failure is observable only
through the awaiter, never as a return of the submission itself. -/
theorem C10_await_enqueue_failure {S : Type} (e : ActorS.Front S)
    (ctxCanc : Bool) (action : S → S × GoErr) (K : Nat) (hK : 1 ≤ K)
    (chanVal : GoErr) :
    (e.status = true → ∀ br : ActorS.SelectBranch,
      (ActorS.DoAsyncAwaitWithErrorContext e br ctxCanc action).2 = e ∧
        (ActorS.invokeK chanVal K
            (ActorS.DoAsyncAwaitWithErrorContext e br ctxCanc action).1).1
          = List.replicate K
              (.actorError "do-async-await" e.errSlot .errShutdown, false)) ∧
    (e.status = false →
      (ActorS.DoAsyncAwaitWithErrorContext e .reqCtxDone ctxCanc action).2 = e ∧
        (ActorS.invokeK chanVal K
            (ActorS.DoAsyncAwaitWithErrorContext e .reqCtxDone ctxCanc
              action).1).1
          = List.replicate K
              (.actorError "do-async-await" .ctxCanceled .errCanceled, false)) := by
  constructor
  · intro h br
    refine ⟨by simp [ActorS.DoAsyncAwaitWithErrorContext, h], ?_⟩
    simp only [ActorS.DoAsyncAwaitWithErrorContext, h, if_true]
    exact invokeK_queueErr chanVal K hK _ rfl
  · intro h
    refine ⟨by simp [ActorS.DoAsyncAwaitWithErrorContext, h], ?_⟩
    simp only [ActorS.DoAsyncAwaitWithErrorContext, h, Bool.false_eq_true,
      if_false]
    exact invokeK_queueErr chanVal K hK _ rfl

/-- Witness for C10 on a terminated engine and on a canceled enqueue. -/
theorem C10_await_enqueue_failure_witness :
    (⟨true, .nilErr, [], 0⟩ : ActorS.Front Nat).status = true ∧
      (ActorS.invokeK .nilErr 2
          (ActorS.DoAsyncAwaitWithErrorContext
            (⟨true, .nilErr, [], 0⟩ : ActorS.Front Nat) .sent false
            incrAction).1).1
        = List.replicate 2
            (.actorError "do-async-await" .nilErr .errShutdown, false) ∧
      (ActorS.invokeK .nilErr 2
          (ActorS.DoAsyncAwaitWithErrorContext
            (⟨false, .nilErr, [], 0⟩ : ActorS.Front Nat) .reqCtxDone false
            incrAction).1).1
        = List.replicate 2
            (.actorError "do-async-await" .ctxCanceled .errCanceled, false) :=
  ⟨rfl,
    ((C10_await_enqueue_failure (⟨true, .nilErr, [], 0⟩ : ActorS.Front Nat)
      false incrAction 2 (by decide) .nilErr).1 rfl .sent).2,
    ((C10_await_enqueue_failure (⟨false, .nilErr, [], 0⟩ : ActorS.Front Nat)
      false incrAction 2 (by decide) .nilErr).2 rfl).2⟩

end GoActor
